import Mathlib

/-!
# Verification of the QuantFin-AnalyticX numerical core

Shallow embedding, over the real numbers, of the Black-Scholes pricing function
(`src/pricing.py`), the Greeks calculator (`src/greeks.py`), the delta-hedging
simulation loop (`pages/3_theSimulation.py`) and the portfolio payoff
aggregation (`pages/1_thePortfolio.py`), together with proofs of the
specification's claims about them.

`scipy.stats.norm.cdf` is modelled by the mathematical standard normal
cumulative distribution function `Phi`, defined as a Lebesgue integral of the
Gaussian density; the facts the proofs need (`Phi x + Phi (-x) = 1` and
`0 ≤ Phi x ≤ 1`) are derived from Mathlib's Gaussian integral.
-/

open MeasureTheory Set

namespace QuantFin

/-- The (unnormalised) standard Gaussian density `exp (-t²/2)`. -/
noncomputable def gauss (t : ℝ) : ℝ := Real.exp (-(1 / 2) * t ^ 2)

/-- Standard normal CDF, the model of `scipy.stats.norm.cdf`. -/
noncomputable def Phi (x : ℝ) : ℝ := (∫ t in Set.Iic x, gauss t) / Real.sqrt (2 * Real.pi)


/-!
## Python value model

`black_scholes` and `GreekCalculator.__init__` validate their arguments with
`isinstance(val, (int, float))`, raising `TypeError` for non-numeric arguments
and `ValueError` for a bad `option_type`.  Past validation, the only statement
that can still raise is the pure-Python division `S / K` inside
`np.log(S / K)`, which raises `ZeroDivisionError` when `K == 0` (every other
division is by a `np.float64`, which yields `inf`/`nan` with a warning rather
than raising).  Python scalars are modelled by `PyVal` (ints and floats carry
their numeric value; other runtime types are represented by their shape only),
raised exceptions by `Except PyError`.
-/

inductive PyVal where
  | int : ℤ → PyVal
  | float : ℝ → PyVal
  | str : String → PyVal
  | pyNone : PyVal

inductive PyError where
  | typeError : String → PyError
  | valueError : String → PyError
  | zeroDivisionError : String → PyError

/-- Model of `isinstance(val, (int, float))`. -/
def PyVal.isNum : PyVal → Bool
  | .int _ => true
  | .float _ => true
  | _ => false

/-- Python's `type(val).__name__`. -/
def PyVal.typeName : PyVal → String
  | .int _ => "int"
  | .float _ => "float"
  | .str _ => "str"
  | .pyNone => "NoneType"

/-- Message of the Python `ZeroDivisionError` raised by `x / y` at `y == 0`:
`int / int` reports "division by zero", float division "float division by
zero". -/
def pyDivZeroMsg (x y : PyVal) : String :=
  match x, y with
  | .int _, .int _ => "division by zero"
  | _, _ => "float division by zero"

/-- Numeric value of a validated scalar (junk value `0` off the numeric case,
which validation makes unreachable). -/
noncomputable def PyVal.toReal : PyVal → ℝ
  | .int n => (n : ℝ)
  | .float x => x
  | _ => 0

/-- The `for name, val in zip(...)` validation loop shared by
`black_scholes` and `GreekCalculator.__init__`: returns the first `TypeError`
raised, if any.  `msg` is the (per-caller) message infix between the parameter
name and the offending type name. -/
def checkNumericMsg (msg : String) : List (String × PyVal) → Option PyError
  | [] => Option.none
  | (name, v) :: rest =>
    if v.isNum then checkNumericMsg msg rest
    else Option.some (PyError.typeError (name ++ msg ++ v.typeName))

/-!
## `black_scholes` (src/pricing.py)
-/

/-- Local `d1` of `black_scholes` (the `q`-adjusted form). -/
noncomputable def bs_d1 (S K T r sigma q : ℝ) : ℝ :=
  (Real.log (S / K) + (r - q + 0.5 * sigma ^ 2) * T) / (sigma * Real.sqrt T)

/-- Local `d2` of `black_scholes`. -/
noncomputable def bs_d2 (S K T r sigma q : ℝ) : ℝ :=
  bs_d1 S K T r sigma q - sigma * Real.sqrt T

/-- Body of `black_scholes` after argument validation: the branch on `T <= 0`,
then `sigma <= 0`, then the BSM formula. -/
noncomputable def blackScholesVal (S K T r sigma : ℝ) (option_type : String) (q : ℝ) : ℝ :=
  if T ≤ 0 then
    if option_type = "call" then max (S - K) 0 else max (K - S) 0
  else if sigma ≤ 0 then
    if option_type = "call" then Real.exp (-r * T) * max (S - K) 0
    else Real.exp (-r * T) * max (K - S) 0
  else
    if option_type = "call" then
      S * Real.exp (-q * T) * Phi (bs_d1 S K T r sigma q) -
        K * Real.exp (-r * T) * Phi (bs_d2 S K T r sigma q)
    else
      K * Real.exp (-r * T) * Phi (-bs_d2 S K T r sigma q) -
        S * Real.exp (-q * T) * Phi (-bs_d1 S K T r sigma q)

/-- Common validation prologue of `black_scholes` and
`GreekCalculator.__init__`: raise the first `TypeError` of the numeric check
over `L`, else raise `ValueError` unless `option_type in ['call', 'put']`,
else run `body` — the rest of the function, which may itself raise. -/
def pyValidate {a : Type} (msg : String) (L : List (String × PyVal))
    (option_type : String) (body : Except PyError a) : Except PyError a :=
  match checkNumericMsg msg L with
  | Option.some e => Except.error e
  | Option.none =>
    if ¬(option_type = "call" ∨ option_type = "put") then
      Except.error (PyError.valueError "option_type must be 'call' or 'put'")
    else
      body

/-- Body of `black_scholes` after validation, with its raise behaviour: the
`T <= 0` and `sigma <= 0` branches contain no division and return normally;
the BSM branch first evaluates `np.log(S / K)`, whose pure-Python division
`S / K` raises `ZeroDivisionError` when `K == 0` (the later division by
`sigma * np.sqrt(T)` is by a positive `np.float64` in this branch).  The value
returned on each non-raising branch is `blackScholesVal`, which branches on
the same conditions. -/
noncomputable def blackScholesBody (S K T r sigma : PyVal) (option_type : String)
    (q : PyVal) : Except PyError ℝ :=
  if T.toReal ≤ 0 then
    Except.ok (blackScholesVal S.toReal K.toReal T.toReal r.toReal sigma.toReal
      option_type q.toReal)
  else if sigma.toReal ≤ 0 then
    Except.ok (blackScholesVal S.toReal K.toReal T.toReal r.toReal sigma.toReal
      option_type q.toReal)
  else if K.toReal = 0 then
    Except.error (PyError.zeroDivisionError (pyDivZeroMsg S K))
  else
    Except.ok (blackScholesVal S.toReal K.toReal T.toReal r.toReal sigma.toReal
      option_type q.toReal)

/-- Model of `black_scholes(S, K, T, r, sigma, option_type, q=0)` including its
argument validation and its `ZeroDivisionError` at `K = 0`. -/
noncomputable def black_scholes (S K T r sigma : PyVal) (option_type : String)
    (q : PyVal) : Except PyError ℝ :=
  pyValidate " must be an int or float, got "
    [("S", S), ("K", K), ("T", T), ("r", r), ("sigma", sigma), ("q", q)] option_type
    (blackScholesBody S K T r sigma option_type q)

/-!
## `GreekCalculator` (src/greeks.py)
-/

structure GreekCalculator where
  S : ℝ
  K : ℝ
  T : ℝ
  r : ℝ
  sigma : ℝ
  option_type : String
  d1 : ℝ
  d2 : ℝ

/-- Model of `GreekCalculator._compute_d1_d2` (no dividend yield). -/
noncomputable def compute_d1_d2 (S K T r sigma : ℝ) : ℝ × ℝ :=
  ((Real.log (S / K) + (r + 0.5 * sigma ^ 2) * T) / (sigma * Real.sqrt T),
   (Real.log (S / K) + (r + 0.5 * sigma ^ 2) * T) / (sigma * Real.sqrt T) -
     sigma * Real.sqrt T)

/-- Field assignment part of `GreekCalculator.__init__` (after validation). -/
noncomputable def GreekCalculator.make (S K T r sigma : ℝ) (option_type : String) :
    GreekCalculator :=
  ⟨S, K, T, r, sigma, option_type,
   (compute_d1_d2 S K T r sigma).1, (compute_d1_d2 S K T r sigma).2⟩

/-- Body of `GreekCalculator.__init__` after validation: the constructor
always calls `_compute_d1_d2`, whose `np.log(self.S / self.K)` raises
`ZeroDivisionError` when `K == 0` (the division by `sigma * np.sqrt(T)` is by
a `np.float64` and warns instead of raising, whatever `T` and `sigma` are). -/
noncomputable def greekInitBody (S K T r sigma : PyVal) (option_type : String) :
    Except PyError GreekCalculator :=
  if K.toReal = 0 then
    Except.error (PyError.zeroDivisionError (pyDivZeroMsg S K))
  else
    Except.ok (GreekCalculator.make S.toReal K.toReal T.toReal r.toReal
      sigma.toReal option_type)

/-- Model of `GreekCalculator.__init__` including its argument validation and
its `ZeroDivisionError` at `K = 0`. -/
noncomputable def GreekCalculator.init (S K T r sigma : PyVal) (option_type : String) :
    Except PyError GreekCalculator :=
  pyValidate " must be a int or float, got "
    [("S", S), ("K", K), ("T", T), ("r", r), ("sigma", sigma)] option_type
    (greekInitBody S K T r sigma option_type)

/-- Model of `GreekCalculator.delta`. -/
noncomputable def GreekCalculator.delta (g : GreekCalculator) : ℝ :=
  if g.option_type = "call" then Phi g.d1 else Phi g.d1 - 1

/-!
## Delta-hedging simulation (pages/3_theSimulation.py)
-/

/-- The page-local closed-form `bs_delta`. -/
noncomputable def bs_delta (S K T r sigma : ℝ) (option_type : String) : ℝ :=
  if option_type = "call" then
    Phi ((Real.log (S / K) + (r + 0.5 * sigma ^ 2) * T) / (sigma * Real.sqrt T))
  else
    -Phi (-((Real.log (S / K) + (r + 0.5 * sigma ^ 2) * T) / (sigma * Real.sqrt T)))

/-- A simulated GBM price path: `S_paths = S0 * exp((mu - 0.5*sigma**2) * t_vals
+ sigma * W)`, with `t_vals[i] = i * (T / N)` and `W` the cumulated Brownian
increments (`W 0 = 0`). -/
noncomputable def gbmPath (S0 mu sigma T : ℝ) (N : ℕ) (W : ℕ → ℝ) (i : ℕ) : ℝ :=
  S0 * Real.exp ((mu - 0.5 * sigma ^ 2) * ((i : ℝ) * (T / N)) + sigma * W i)

/-- Model of `t_vals = np.linspace(0, T, N + 1)`. -/
noncomputable def t_vals (T : ℝ) (N : ℕ) : List ℝ :=
  (List.range (N + 1)).map fun i : ℕ => (i : ℝ) * (T / N)

/-- Per-path mutable state of the `for i in range(N)` hedge loop:
`cash_account`, `delta_prev`, `deltas`, `stock_track`. -/
structure HedgeState where
  cash : ℝ
  delta_prev : ℝ
  deltas : List ℝ
  stock_track : List ℝ

/-- The `for i in range(N)` hedge loop.  `fuel` counts the remaining loop
iterations and `i` is the current loop index; the `tau <= 0` guard models the
`break`.  One iteration executes, in order: `tau = T - i*dt`;
`delta = bs_delta(S_t, strike, tau, r, sigma, option_type)`;
`cash -= (delta - delta_prev) * S_t`; `cash *= exp(r*dt)`; `delta_prev = delta`;
`deltas.append(delta)`; `stock_track.append(S_t)` (the two cash statements are
composed into one expression). -/
noncomputable def hedgeLoop (path : ℕ → ℝ) (strike T r sigma dt : ℝ)
    (option_type : String) : ℕ → ℕ → HedgeState → HedgeState
  | 0, _, st => st
  | fuel + 1, i, st =>
    if T - (i : ℝ) * dt ≤ 0 then st
    else
      hedgeLoop path strike T r sigma dt option_type fuel (i + 1)
        ⟨(st.cash - (bs_delta (path i) strike (T - (i : ℝ) * dt) r sigma option_type -
              st.delta_prev) * path i) * Real.exp (r * dt),
         bs_delta (path i) strike (T - (i : ℝ) * dt) r sigma option_type,
         st.deltas ++ [bs_delta (path i) strike (T - (i : ℝ) * dt) r sigma option_type],
         st.stock_track ++ [path i]⟩

/-- Per-path output of the simulation: the realized `pnl` appended to
`pnl_paths`, and the `stock_track` / `deltas` trajectories appended to
`stock_paths` / `delta_paths`. -/
structure PathResult where
  pnl : ℝ
  stock_track : List ℝ
  deltas : List ℝ

/-- One iteration of the outer `for path in S_paths` loop: run the hedge loop
from `cash_account = 0`, `delta_prev = 0`, then `S_T = path[-1]`
(`= path N`, the path having `N + 1` points), terminal intrinsic `payoff`,
`hedge_value = delta_prev * S_T + cash_account`, and
`pnl = (hedge_value - payoff) * qty - premium * qty`. -/
noncomputable def simulatePath (path : ℕ → ℝ) (strike T r sigma : ℝ)
    (option_type : String) (N : ℕ) (qty premium : ℝ) : PathResult :=
  let st := hedgeLoop path strike T r sigma (T / N) option_type N 0 ⟨0, 0, [], []⟩
  let payoff := if option_type = "call" then max (path N - strike) 0
    else max (strike - path N) 0
  ⟨(st.delta_prev * path N + st.cash - payoff) * qty - premium * qty,
   st.stock_track, st.deltas⟩

/-- Delta computed at step `i` of the hedge loop: the Black-Scholes delta at
spot `path i` and remaining maturity `tau = T - i * (T / N)`. -/
noncomputable def deltaStep (path : ℕ → ℝ) (strike T r sigma : ℝ)
    (option_type : String) (N : ℕ) (i : ℕ) : ℝ :=
  bs_delta (path i) strike (T - (i : ℝ) * (T / N)) r sigma option_type

/-- The value of `delta_prev` entering step `i`: `0` at step `0`, else the
delta of the previous step. -/
noncomputable def deltaPrevAt (path : ℕ → ℝ) (strike T r sigma : ℝ)
    (option_type : String) (N : ℕ) (i : ℕ) : ℝ :=
  if i = 0 then 0 else deltaStep path strike T r sigma option_type N (i - 1)

/-- The cash-account recurrence of the claim: `cash 0 = 0` and
`cash (i+1) = (cash i - (delta_i - delta_prev_i) * S_i) * exp (r * dt)`. -/
noncomputable def cashAt (path : ℕ → ℝ) (strike T r sigma : ℝ)
    (option_type : String) (N : ℕ) : ℕ → ℝ
  | 0 => 0
  | i + 1 =>
    (cashAt path strike T r sigma option_type N i -
        (deltaStep path strike T r sigma option_type N i -
          deltaPrevAt path strike T r sigma option_type N i) * path i) *
      Real.exp (r * (T / N))

/-!
## Portfolio payoff aggregation (pages/1_thePortfolio.py)
-/

/-- One portfolio position as appended by "Add to Portfolio" (the fields the
payoff curve reads). -/
structure OptionPos where
  option_type : String
  strike : ℝ
  qty : ℤ
  implied_volatility : ℝ
  premium : ℝ

/-- Per-position, per-grid-point contribution accumulated into
`total_payoff[i]`: `q * (intrinsic_value - prem)` with
`intrinsic_value = max(S - K, 0)` for a call and `max(K - S, 0)` for a put. -/
noncomputable def positionPayoff (p : OptionPos) (S : ℝ) : ℝ :=
  (p.qty : ℝ) *
    ((if p.option_type = "call" then max (S - p.strike) 0
      else max (p.strike - S) 0) - p.premium)

/-- Value of `total_payoff[i]` for grid price `S`: the sum over the portfolio
of the per-position contributions (the source accumulates position-by-position
into a zero-initialised array; addition is reassociated position-first). -/
noncomputable def totalPayoff (portfolio : List OptionPos) (S : ℝ) : ℝ :=
  (portfolio.map fun p => positionPayoff p S).sum

/-- The aggregated payoff curve over the price grid `S_range`. -/
noncomputable def payoffCurve (portfolio : List OptionPos) (grid : List ℝ) : List ℝ :=
  grid.map (totalPayoff portfolio)

/-- Spec-side statement of the standard BSM call price (spec 4.1, step 3):
`d1 = (ln(S/K) + (r - q + sigma^2/2) T) / (sigma sqrt T)`, `d2 = d1 - sigma sqrt T`,
price `S e^{-qT} Phi(d1) - K e^{-rT} Phi(d2)`. -/
noncomputable def bsmCallSpec (S K T r sigma q : ℝ) : ℝ :=
  S * Real.exp (-q * T) *
      Phi ((Real.log (S / K) + (r - q + sigma ^ 2 / 2) * T) / (sigma * Real.sqrt T)) -
    K * Real.exp (-r * T) *
      Phi ((Real.log (S / K) + (r - q + sigma ^ 2 / 2) * T) / (sigma * Real.sqrt T) -
        sigma * Real.sqrt T)

/-- Spec-side statement of the standard BSM put price (spec 4.1, step 3):
price `K e^{-rT} Phi(-d2) - S e^{-qT} Phi(-d1)`. -/
noncomputable def bsmPutSpec (S K T r sigma q : ℝ) : ℝ :=
  K * Real.exp (-r * T) *
      Phi (-((Real.log (S / K) + (r - q + sigma ^ 2 / 2) * T) / (sigma * Real.sqrt T) -
        sigma * Real.sqrt T)) -
    S * Real.exp (-q * T) *
      Phi (-((Real.log (S / K) + (r - q + sigma ^ 2 / 2) * T) / (sigma * Real.sqrt T)))

/-!
## Facts about the normal CDF
-/

lemma gauss_nonneg (t : ℝ) : 0 ≤ gauss t := (Real.exp_pos _).le

lemma integrable_gauss : Integrable gauss := by
  have h : Integrable (fun t : ℝ => Real.exp (-(1 / 2 : ℝ) * t ^ 2)) :=
    integrable_exp_neg_mul_sq (by norm_num)
  exact h

lemma integral_gauss_total : (∫ t : ℝ, gauss t) = Real.sqrt (2 * Real.pi) := by
  have h := integral_gaussian (1 / 2 : ℝ)
  have h2 : Real.pi / (1 / 2 : ℝ) = 2 * Real.pi := by ring
  rw [h2] at h
  simpa [gauss] using h

lemma sqrt_two_pi_pos : 0 < Real.sqrt (2 * Real.pi) :=
  Real.sqrt_pos.mpr (by positivity)

lemma Phi_nonneg (x : ℝ) : 0 ≤ Phi x :=
  div_nonneg (setIntegral_nonneg measurableSet_Iic fun t _ => gauss_nonneg t)
    (Real.sqrt_nonneg _)

lemma Phi_le_one (x : ℝ) : Phi x ≤ 1 := by
  rw [Phi, div_le_one sqrt_two_pi_pos, ← integral_gauss_total]
  exact setIntegral_le_integral integrable_gauss
    (Filter.Eventually.of_forall fun t => gauss_nonneg t)

lemma Phi_add_neg (x : ℝ) : Phi x + Phi (-x) = 1 := by
  have hgn : ∀ t : ℝ, gauss (-t) = gauss t := by
    intro t; simp [gauss, neg_sq]
  have h1 : (∫ t in Set.Iic (-x), gauss t) = ∫ t in Set.Ioi x, gauss t := by
    have h2 := integral_comp_neg_Iic (-x) gauss
    simp only [hgn, neg_neg] at h2
    exact h2
  have hsplit : (∫ t in Set.Iic x, gauss t) + (∫ t in Set.Ioi x, gauss t) =
      Real.sqrt (2 * Real.pi) := by
    rw [← setIntegral_union (Set.Iic_disjoint_Ioi le_rfl) measurableSet_Ioi
        integrable_gauss.integrableOn integrable_gauss.integrableOn,
      Set.Iic_union_Ioi, Measure.restrict_univ]
    exact integral_gauss_total
  rw [Phi, Phi, div_add_div_same, h1, hsplit, div_self sqrt_two_pi_pos.ne']

/-!
## Hedge-loop invariant
-/

/-- When `T > 0` and `N > 0` the `tau <= 0` guard never fires, and running
`fuel` iterations of the hedge loop from step `i` turns the claimed state at
step `i` into the claimed state at step `i + fuel`, appending one delta and one
spot per step. -/
lemma hedgeLoop_invariant (path : ℕ → ℝ) (strike T r sigma : ℝ) (option_type : String)
    (N : ℕ) (hT : 0 < T) (hN : 0 < N) :
    ∀ fuel i ds ss, i + fuel ≤ N →
      hedgeLoop path strike T r sigma (T / N) option_type fuel i
        ⟨cashAt path strike T r sigma option_type N i,
         deltaPrevAt path strike T r sigma option_type N i, ds, ss⟩ =
      ⟨cashAt path strike T r sigma option_type N (i + fuel),
       deltaPrevAt path strike T r sigma option_type N (i + fuel),
       ds ++ (List.range' i fuel).map (deltaStep path strike T r sigma option_type N),
       ss ++ (List.range' i fuel).map path⟩ := by
  intro fuel
  induction fuel with
  | zero =>
    intro i ds ss _
    simp [hedgeLoop]
  | succ fuel ih =>
    intro i ds ss h
    have hiN : i < N := by omega
    have htau : ¬ T - (i : ℝ) * (T / N) ≤ 0 := by
      push_neg
      have hNpos : (0 : ℝ) < (N : ℝ) := by exact_mod_cast hN
      have hdt : (0 : ℝ) < T / N := div_pos hT hNpos
      have h1 : (i : ℝ) * (T / N) < (N : ℝ) * (T / N) :=
        mul_lt_mul_of_pos_right (by exact_mod_cast hiN) hdt
      have h2 : (N : ℝ) * (T / N) = T := by field_simp
      linarith
    rw [hedgeLoop, if_neg htau]
    have hadd : i + (fuel + 1) = (i + 1) + fuel := by omega
    rw [hadd]
    have hstep := ih (i + 1) (ds ++ [deltaStep path strike T r sigma option_type N i])
      (ss ++ [path i]) (by omega)
    refine Eq.trans ?_ (hstep.trans ?_)
    · rfl
    · rw [List.range'_succ]
      simp [List.append_assoc]

/-- C4: hedge-loop bookkeeping and per-path PnL.  For every path with `T > 0`,
`N > 0` and `sigma > 0`, starting from `cash = 0` and `delta_prev = 0`, after
any `i ≤ N` loop iterations the simulator's state is exactly the claimed
recurrence (cash updated by `cash -= (delta_i - delta_prev_i) * S_i` then
`cash *= exp (r * dt)` at every step, no early break), and the realized PnL of
the path is `(delta_final * S_T + cash_N - payoff) * qty - premium * qty` with
`payoff` the intrinsic value at the terminal price `S_T = path N`. -/
theorem C4_hedge_bookkeeping (path : ℕ → ℝ) (strike T r sigma qty premium : ℝ)
    (option_type : String) (N : ℕ) (hT : 0 < T) (hN : 0 < N) (hsigma : 0 < sigma) :
    (∀ i, i ≤ N →
      hedgeLoop path strike T r sigma (T / N) option_type i 0 ⟨0, 0, [], []⟩ =
        ⟨cashAt path strike T r sigma option_type N i,
         deltaPrevAt path strike T r sigma option_type N i,
         (List.range' 0 i).map (deltaStep path strike T r sigma option_type N),
         (List.range' 0 i).map path⟩) ∧
    (simulatePath path strike T r sigma option_type N qty premium).pnl =
      (deltaStep path strike T r sigma option_type N (N - 1) * path N +
        cashAt path strike T r sigma option_type N N -
        (if option_type = "call" then max (path N - strike) 0
         else max (strike - path N) 0)) * qty - premium * qty := by
  have hini : (⟨cashAt path strike T r sigma option_type N 0,
      deltaPrevAt path strike T r sigma option_type N 0, [], []⟩ : HedgeState) =
      ⟨0, 0, [], []⟩ := by
    simp [cashAt, deltaPrevAt]
  have hrun : ∀ i, i ≤ N →
      hedgeLoop path strike T r sigma (T / N) option_type i 0 ⟨0, 0, [], []⟩ =
        ⟨cashAt path strike T r sigma option_type N i,
         deltaPrevAt path strike T r sigma option_type N i,
         (List.range' 0 i).map (deltaStep path strike T r sigma option_type N),
         (List.range' 0 i).map path⟩ := by
    intro i hi
    have h0 := hedgeLoop_invariant path strike T r sigma option_type N hT hN i 0 [] []
      (by omega)
    rw [hini] at h0
    simpa using h0
  refine ⟨hrun, ?_⟩
  have hN0 : N ≠ 0 := by omega
  simp only [simulatePath, hrun N le_rfl]
  simp [deltaPrevAt, hN0]

/-- Closed witness for `C4_hedge_bookkeeping` at a constant path with
`T = 1`, `N = 1`, `sigma = 1`. -/
theorem C4_hedge_bookkeeping_witness :
    (simulatePath (fun _ => (100 : ℝ)) 100 1 0 1 "call" 1 1 5).pnl =
      (deltaStep (fun _ => (100 : ℝ)) 100 1 0 1 "call" 1 0 * 100 +
        cashAt (fun _ => (100 : ℝ)) 100 1 0 1 "call" 1 1 -
        (if ("call" : String) = "call" then max ((100 : ℝ) - 100) 0
         else max ((100 : ℝ) - 100) 0)) * 1 - 5 * 1 :=
  (C4_hedge_bookkeeping (fun _ => (100 : ℝ)) 100 1 0 1 1 5 "call" 1
    (by norm_num) (by norm_num) (by norm_num)).2

/-- C10: for `T > 0` and `N > 0` the time grid has `N + 1` points while each
path's recorded trajectories have exactly `N` entries: the stock trajectory is
the path at indices `0, …, N-1` (the terminal price `path N` is not appended)
and the delta trajectory records the `N` per-step deltas. -/
theorem C10_trajectory_lengths (path : ℕ → ℝ) (strike T r sigma qty premium : ℝ)
    (option_type : String) (N : ℕ) (hT : 0 < T) (hN : 0 < N) :
    (t_vals T N).length = N + 1 ∧
    (simulatePath path strike T r sigma option_type N qty premium).stock_track =
      (List.range N).map path ∧
    (simulatePath path strike T r sigma option_type N qty premium).deltas =
      (List.range N).map (deltaStep path strike T r sigma option_type N) := by
  have hini : (⟨cashAt path strike T r sigma option_type N 0,
      deltaPrevAt path strike T r sigma option_type N 0, [], []⟩ : HedgeState) =
      ⟨0, 0, [], []⟩ := by
    simp [cashAt, deltaPrevAt]
  have h0 := hedgeLoop_invariant path strike T r sigma option_type N hT hN N 0 [] []
    (by omega)
  rw [hini] at h0
  refine ⟨by rw [t_vals, List.length_map, List.length_range], ?_, ?_⟩ <;>
    simp [simulatePath, h0, List.range_eq_range']

/-- Closed witness for `C10_trajectory_lengths` at a constant path with
`T = 1`, `N = 1`. -/
theorem C10_trajectory_lengths_witness :
    (t_vals 1 1).length = 1 + 1 ∧
    (simulatePath (fun _ => (100 : ℝ)) 100 1 0 1 "call" 1 1 5).stock_track =
      (List.range 1).map (fun _ => (100 : ℝ)) ∧
    (simulatePath (fun _ => (100 : ℝ)) 100 1 0 1 "call" 1 1 5).deltas =
      (List.range 1).map (deltaStep (fun _ => (100 : ℝ)) 100 1 0 1 "call" 1) :=
  C10_trajectory_lengths (fun _ => (100 : ℝ)) 100 1 0 1 1 5 "call" 1
    (by norm_num) (by norm_num)

/-!
## C1, C2: pricing claims
-/


lemma bs_d1_eq_spec (S K T r sigma q : ℝ) :
    bs_d1 S K T r sigma q =
      (Real.log (S / K) + (r - q + sigma ^ 2 / 2) * T) / (sigma * Real.sqrt T) := by
  rw [bs_d1]
  ring

/-- C1: edge-case precedence of `black_scholes`.  For all real parameters and
both option types: if `T ≤ 0` the result is the undiscounted intrinsic value,
regardless of `sigma`, `r` and `q`; else if `sigma ≤ 0` it is the discounted
intrinsic value; else it is the standard BSM price. -/
theorem C1_edge_case_precedence (S K T r sigma q : ℝ) :
    (T ≤ 0 →
      blackScholesVal S K T r sigma "call" q = max (S - K) 0 ∧
      blackScholesVal S K T r sigma "put" q = max (K - S) 0) ∧
    (0 < T → sigma ≤ 0 →
      blackScholesVal S K T r sigma "call" q = Real.exp (-r * T) * max (S - K) 0 ∧
      blackScholesVal S K T r sigma "put" q = Real.exp (-r * T) * max (K - S) 0) ∧
    (0 < T → 0 < sigma →
      blackScholesVal S K T r sigma "call" q = bsmCallSpec S K T r sigma q ∧
      blackScholesVal S K T r sigma "put" q = bsmPutSpec S K T r sigma q) := by
  refine ⟨fun hT => ?_, fun hT hs => ?_, fun hT hs => ?_⟩
  · constructor <;> simp [blackScholesVal, hT]
  · constructor <;> simp [blackScholesVal, not_le.mpr hT, hs]
  · have h1 := bs_d1_eq_spec S K T r sigma q
    constructor <;>
      simp [blackScholesVal, not_le.mpr hT, not_le.mpr hs, bsmCallSpec, bsmPutSpec,
        bs_d2, h1]

/-- Closed witness for `C1_edge_case_precedence`, exercising all three
branches at concrete inputs. -/
theorem C1_edge_case_precedence_witness :
    (blackScholesVal 2 1 0 1 (-1) "call" 0 = max (2 - 1) 0 ∧
      blackScholesVal 2 1 0 1 (-1) "put" 0 = max (1 - 2) 0) ∧
    (blackScholesVal 2 1 1 1 0 "call" 0 = Real.exp (-1 * 1) * max (2 - 1) 0 ∧
      blackScholesVal 2 1 1 1 0 "put" 0 = Real.exp (-1 * 1) * max (1 - 2) 0) ∧
    (blackScholesVal 2 1 1 1 1 "call" 0 = bsmCallSpec 2 1 1 1 1 0 ∧
      blackScholesVal 2 1 1 1 1 "put" 0 = bsmPutSpec 2 1 1 1 1 0) :=
  ⟨(C1_edge_case_precedence 2 1 0 1 (-1) 0).1 (by norm_num),
   (C1_edge_case_precedence 2 1 1 1 0 0).2.1 (by norm_num) (by norm_num),
   (C1_edge_case_precedence 2 1 1 1 1 0).2.2 (by norm_num) (by norm_num)⟩

/-- C2: put-call parity.  For `S, K, T, sigma > 0` and any `r, q`,
`call - put = S e^{-qT} - K e^{-rT}` exactly, over real arithmetic. -/
theorem C2_put_call_parity (S K T r sigma q : ℝ) (hS : 0 < S) (hK : 0 < K)
    (hT : 0 < T) (hsigma : 0 < sigma) :
    blackScholesVal S K T r sigma "call" q - blackScholesVal S K T r sigma "put" q =
      S * Real.exp (-q * T) - K * Real.exp (-r * T) := by
  have h1 := Phi_add_neg (bs_d1 S K T r sigma q)
  have h2 := Phi_add_neg (bs_d2 S K T r sigma q)
  have hpc : ¬ (("put" : String) = "call") := by decide
  simp only [blackScholesVal, if_neg (not_le.mpr hT), if_neg (not_le.mpr hsigma)]
  rw [if_pos trivial, if_neg hpc]
  linear_combination S * Real.exp (-q * T) * h1 - K * Real.exp (-r * T) * h2

/-- Closed witness for `C2_put_call_parity`. -/
theorem C2_put_call_parity_witness :
    blackScholesVal 1 1 1 0 1 "call" 0 - blackScholesVal 1 1 1 0 1 "put" 0 =
      1 * Real.exp (-0 * 1) - 1 * Real.exp (-0 * 1) :=
  C2_put_call_parity 1 1 1 0 1 0 (by norm_num) (by norm_num) (by norm_num) (by norm_num)

/-!
## C3, C8: delta claims
-/

/-- C3: the simulation page's closed-form `bs_delta` agrees with
`GreekCalculator.delta` at the same `(S, K, tau, r, sigma)` for both option
types (`Phi d1` for a call; `-Phi (-d1) = Phi d1 - 1` for a put). -/
theorem C3_bs_delta_eq_greek_delta (S K tau r sigma : ℝ) (hS : 0 < S) (hK : 0 < K)
    (htau : 0 < tau) (hsigma : 0 < sigma) :
    bs_delta S K tau r sigma "call" = (GreekCalculator.make S K tau r sigma "call").delta ∧
    bs_delta S K tau r sigma "put" = (GreekCalculator.make S K tau r sigma "put").delta := by
  constructor
  · simp [bs_delta, GreekCalculator.delta, GreekCalculator.make, compute_d1_d2]
  · have h := Phi_add_neg
      ((Real.log (S / K) + (r + 0.5 * sigma ^ 2) * tau) / (sigma * Real.sqrt tau))
    have hpc : ¬ (("put" : String) = "call") := by decide
    simp only [bs_delta, GreekCalculator.delta, GreekCalculator.make, compute_d1_d2]
    rw [if_neg hpc, if_neg hpc]
    linarith [h]

/-- Closed witness for `C3_bs_delta_eq_greek_delta`. -/
theorem C3_bs_delta_eq_greek_delta_witness :
    bs_delta 1 1 1 0 1 "call" = (GreekCalculator.make 1 1 1 0 1 "call").delta ∧
    bs_delta 1 1 1 0 1 "put" = (GreekCalculator.make 1 1 1 0 1 "put").delta :=
  C3_bs_delta_eq_greek_delta 1 1 1 0 1 (by norm_num) (by norm_num) (by norm_num)
    (by norm_num)

/-- C8: delta bounds.  For valid inputs (`S, K, T, sigma > 0`, any `r`), the
call delta lies in `[0, 1]` and the put delta in `[-1, 0]`. -/
theorem C8_delta_bounds (S K T r sigma : ℝ) (hS : 0 < S) (hK : 0 < K)
    (hT : 0 < T) (hsigma : 0 < sigma) :
    (0 ≤ (GreekCalculator.make S K T r sigma "call").delta ∧
      (GreekCalculator.make S K T r sigma "call").delta ≤ 1) ∧
    (-1 ≤ (GreekCalculator.make S K T r sigma "put").delta ∧
      (GreekCalculator.make S K T r sigma "put").delta ≤ 0) := by
  have hnn := Phi_nonneg
    ((Real.log (S / K) + (r + 0.5 * sigma ^ 2) * T) / (sigma * Real.sqrt T))
  have hle := Phi_le_one
    ((Real.log (S / K) + (r + 0.5 * sigma ^ 2) * T) / (sigma * Real.sqrt T))
  have hpc : ¬ (("put" : String) = "call") := by decide
  refine ⟨⟨?_, ?_⟩, ?_, ?_⟩ <;>
    simp only [GreekCalculator.delta, GreekCalculator.make, compute_d1_d2, if_true,
      if_neg hpc] <;> linarith

/-- Closed witness for `C8_delta_bounds`. -/
theorem C8_delta_bounds_witness :
    (0 ≤ (GreekCalculator.make 1 1 1 0 1 "call").delta ∧
      (GreekCalculator.make 1 1 1 0 1 "call").delta ≤ 1) ∧
    (-1 ≤ (GreekCalculator.make 1 1 1 0 1 "put").delta ∧
      (GreekCalculator.make 1 1 1 0 1 "put").delta ≤ 0) :=
  C8_delta_bounds 1 1 1 0 1 (by norm_num) (by norm_num) (by norm_num) (by norm_num)

/-!
## C5: validation raises-iff
-/

lemma checkNumericMsg_eq_none_iff (msg : String) (L : List (String × PyVal)) :
    checkNumericMsg msg L = Option.none ↔ ∀ p ∈ L, p.2.isNum = true := by
  induction L with
  | nil => simp [checkNumericMsg]
  | cons hd tl ih =>
    obtain ⟨name, v⟩ := hd
    cases hv : v.isNum with
    | true => simp [checkNumericMsg, hv, ih]
    | false => simp [checkNumericMsg, hv]

lemma checkNumericMsg_some_typeError (msg : String) (L : List (String × PyVal))
    (e : PyError) (h : checkNumericMsg msg L = Option.some e) :
    ∃ m, e = PyError.typeError m := by
  induction L with
  | nil => simp [checkNumericMsg] at h
  | cons hd tl ih =>
    obtain ⟨name, v⟩ := hd
    cases hv : v.isNum with
    | true =>
      rw [checkNumericMsg, hv] at h
      exact ih h
    | false =>
      rw [checkNumericMsg, hv] at h
      simp at h
      exact ⟨_, h.symm⟩

lemma pyValidate_of_all_num {a : Type} (msg : String) (L : List (String × PyVal))
    (option_type : String) (body : Except PyError a)
    (hall : ∀ p ∈ L, p.2.isNum = true) :
    pyValidate msg L option_type body =
      if ¬(option_type = "call" ∨ option_type = "put") then
        Except.error (PyError.valueError "option_type must be 'call' or 'put'")
      else body := by
  rw [pyValidate, (checkNumericMsg_eq_none_iff msg L).mpr hall]

lemma pyValidate_typeError_iff {a : Type} (msg : String) (L : List (String × PyVal))
    (option_type : String) (body : Except PyError a)
    (hbody : ∀ m, body ≠ Except.error (PyError.typeError m)) :
    (∃ m, pyValidate msg L option_type body = Except.error (PyError.typeError m)) ↔
      ¬ ∀ p ∈ L, p.2.isNum = true := by
  cases h : checkNumericMsg msg L with
  | none =>
    have hall := (checkNumericMsg_eq_none_iff msg L).mp h
    apply iff_of_false _ (not_not_intro hall)
    rintro ⟨m, hm⟩
    rw [pyValidate_of_all_num msg L option_type body hall] at hm
    by_cases hot : option_type = "call" ∨ option_type = "put"
    · rw [if_neg (not_not_intro hot)] at hm
      exact hbody m hm
    · rw [if_pos hot] at hm
      simp at hm
  | some e =>
    obtain ⟨m, rfl⟩ := checkNumericMsg_some_typeError msg L e h
    apply iff_of_true ⟨m, by rw [pyValidate, h]⟩
    intro hall
    rw [(checkNumericMsg_eq_none_iff msg L).mpr hall] at h
    exact Option.noConfusion h

lemma pyValidate_valueError_iff {a : Type} (msg : String) (L : List (String × PyVal))
    (option_type : String) (body : Except PyError a)
    (hbody : ∀ m, body ≠ Except.error (PyError.valueError m))
    (hall : ∀ p ∈ L, p.2.isNum = true) :
    (∃ m, pyValidate msg L option_type body = Except.error (PyError.valueError m)) ↔
      ¬(option_type = "call" ∨ option_type = "put") := by
  rw [pyValidate_of_all_num msg L option_type body hall]
  by_cases hot : option_type = "call" ∨ option_type = "put"
  · rw [if_neg (not_not_intro hot)]
    apply iff_of_false _ (not_not_intro hot)
    rintro ⟨m, hm⟩
    exact hbody m hm
  · rw [if_pos hot]
    exact iff_of_true ⟨_, rfl⟩ hot

lemma pyValidate_pass {a : Type} (msg : String) (L : List (String × PyVal))
    (option_type : String) (body : Except PyError a)
    (hall : ∀ p ∈ L, p.2.isNum = true)
    (hot : option_type = "call" ∨ option_type = "put") :
    pyValidate msg L option_type body = body := by
  rw [pyValidate_of_all_num msg L option_type body hall, if_neg (not_not_intro hot)]

lemma blackScholesBody_ne_typeError (S K T r sigma q : PyVal) (option_type : String) :
    ∀ m, blackScholesBody S K T r sigma option_type q ≠
      Except.error (PyError.typeError m) := by
  intro m
  rw [blackScholesBody]
  split_ifs <;> simp

lemma blackScholesBody_ne_valueError (S K T r sigma q : PyVal) (option_type : String) :
    ∀ m, blackScholesBody S K T r sigma option_type q ≠
      Except.error (PyError.valueError m) := by
  intro m
  rw [blackScholesBody]
  split_ifs <;> simp

lemma greekInitBody_ne_typeError (S K T r sigma : PyVal) (option_type : String) :
    ∀ m, greekInitBody S K T r sigma option_type ≠
      Except.error (PyError.typeError m) := by
  intro m
  rw [greekInitBody]
  split_ifs <;> simp

lemma greekInitBody_ne_valueError (S K T r sigma : PyVal) (option_type : String) :
    ∀ m, greekInitBody S K T r sigma option_type ≠
      Except.error (PyError.valueError m) := by
  intro m
  rw [greekInitBody]
  split_ifs <;> simp

/-- C5 counterexample: with every argument numeric and a valid option type
(`S = 1.0`, `K = 0.0`, `T = 1.0`, `r = 0.0`, `sigma = 1.0`), `black_scholes`
reaches the BSM branch, where the Python division `S / K` inside
`np.log(S / K)` raises `ZeroDivisionError`; `GreekCalculator.__init__`
likewise raises while computing `self.S / self.K`.  This refutes the clause
"otherwise it returns a value without raising". -/
theorem C5_counterexample :
    black_scholes (PyVal.float 1) (PyVal.float 0) (PyVal.float 1) (PyVal.float 0)
        (PyVal.float 1) "call" (PyVal.float 0) =
      Except.error (PyError.zeroDivisionError "float division by zero") ∧
    GreekCalculator.init (PyVal.float 1) (PyVal.float 0) (PyVal.float 1)
        (PyVal.float 0) (PyVal.float 1) "call" =
      Except.error (PyError.zeroDivisionError "float division by zero") := by
  constructor
  · rw [black_scholes,
      pyValidate_pass _ _ _ _ (by simp [PyVal.isNum]) (Or.inl rfl), blackScholesBody]
    norm_num [PyVal.toReal, pyDivZeroMsg]
  · rw [GreekCalculator.init,
      pyValidate_pass _ _ _ _ (by simp [PyVal.isNum]) (Or.inl rfl), greekInitBody]
    norm_num [PyVal.toReal, pyDivZeroMsg]

/-- C5 amended: `black_scholes` raises `TypeError` iff some of `S, K, T, r,
sigma, q` is non-numeric (checked before anything else); with numeric
arguments it raises `ValueError` iff `option_type` is neither `"call"` nor
`"put"`; otherwise it returns a value without raising — unless the BSM branch
is reached with `K = 0` (`T > 0`, `sigma > 0`), where the Python division
`S / K` raises `ZeroDivisionError`.  `GreekCalculator.__init__` performs
identical type and option-type validation on `S, K, T, r, sigma` (no `q`), but
then always computes `d1`/`d2`, so it raises `ZeroDivisionError` iff `K = 0`. -/
theorem C5_validation_raises_iff_amended (S K T r sigma q : PyVal)
    (option_type : String) :
    ((∃ m, black_scholes S K T r sigma option_type q =
        Except.error (PyError.typeError m)) ↔
      ¬(S.isNum = true ∧ K.isNum = true ∧ T.isNum = true ∧ r.isNum = true ∧
        sigma.isNum = true ∧ q.isNum = true)) ∧
    (S.isNum = true ∧ K.isNum = true ∧ T.isNum = true ∧ r.isNum = true ∧
        sigma.isNum = true ∧ q.isNum = true →
      ((∃ m, black_scholes S K T r sigma option_type q =
          Except.error (PyError.valueError m)) ↔
        ¬(option_type = "call" ∨ option_type = "put"))) ∧
    (S.isNum = true ∧ K.isNum = true ∧ T.isNum = true ∧ r.isNum = true ∧
        sigma.isNum = true ∧ q.isNum = true →
      (option_type = "call" ∨ option_type = "put") →
      (T.toReal ≤ 0 ∨ sigma.toReal ≤ 0 ∨ K.toReal ≠ 0) →
      ∃ v, black_scholes S K T r sigma option_type q = Except.ok v) ∧
    (S.isNum = true ∧ K.isNum = true ∧ T.isNum = true ∧ r.isNum = true ∧
        sigma.isNum = true ∧ q.isNum = true →
      (option_type = "call" ∨ option_type = "put") →
      ¬(T.toReal ≤ 0) → ¬(sigma.toReal ≤ 0) → K.toReal = 0 →
      black_scholes S K T r sigma option_type q =
        Except.error (PyError.zeroDivisionError (pyDivZeroMsg S K))) ∧
    ((∃ m, GreekCalculator.init S K T r sigma option_type =
        Except.error (PyError.typeError m)) ↔
      ¬(S.isNum = true ∧ K.isNum = true ∧ T.isNum = true ∧ r.isNum = true ∧
        sigma.isNum = true)) ∧
    (S.isNum = true ∧ K.isNum = true ∧ T.isNum = true ∧ r.isNum = true ∧
        sigma.isNum = true →
      ((∃ m, GreekCalculator.init S K T r sigma option_type =
          Except.error (PyError.valueError m)) ↔
        ¬(option_type = "call" ∨ option_type = "put"))) ∧
    (S.isNum = true ∧ K.isNum = true ∧ T.isNum = true ∧ r.isNum = true ∧
        sigma.isNum = true →
      (option_type = "call" ∨ option_type = "put") →
      K.toReal ≠ 0 →
      ∃ g, GreekCalculator.init S K T r sigma option_type = Except.ok g) ∧
    (S.isNum = true ∧ K.isNum = true ∧ T.isNum = true ∧ r.isNum = true ∧
        sigma.isNum = true →
      (option_type = "call" ∨ option_type = "put") →
      K.toReal = 0 →
      GreekCalculator.init S K T r sigma option_type =
        Except.error (PyError.zeroDivisionError (pyDivZeroMsg S K))) := by
  have hmemBS :
      (∀ p ∈ [("S", S), ("K", K), ("T", T), ("r", r), ("sigma", sigma), ("q", q)],
        (Prod.snd p).isNum = true) ↔
      (S.isNum = true ∧ K.isNum = true ∧ T.isNum = true ∧ r.isNum = true ∧
        sigma.isNum = true ∧ q.isNum = true) := by
    constructor
    · intro h
      exact ⟨h ("S", S) (by simp), h ("K", K) (by simp), h ("T", T) (by simp),
        h ("r", r) (by simp), h ("sigma", sigma) (by simp), h ("q", q) (by simp)⟩
    · rintro ⟨h1, h2, h3, h4, h5, h6⟩ p hp
      simp only [List.mem_cons, List.not_mem_nil, or_false] at hp
      rcases hp with rfl | rfl | rfl | rfl | rfl | rfl <;> assumption
  have hmemGC :
      (∀ p ∈ [("S", S), ("K", K), ("T", T), ("r", r), ("sigma", sigma)],
        (Prod.snd p).isNum = true) ↔
      (S.isNum = true ∧ K.isNum = true ∧ T.isNum = true ∧ r.isNum = true ∧
        sigma.isNum = true) := by
    constructor
    · intro h
      exact ⟨h ("S", S) (by simp), h ("K", K) (by simp), h ("T", T) (by simp),
        h ("r", r) (by simp), h ("sigma", sigma) (by simp)⟩
    · rintro ⟨h1, h2, h3, h4, h5⟩ p hp
      simp only [List.mem_cons, List.not_mem_nil, or_false] at hp
      rcases hp with rfl | rfl | rfl | rfl | rfl <;> assumption
  refine ⟨?_, ?_, ?_, ?_, ?_, ?_, ?_, ?_⟩
  · rw [black_scholes,
      pyValidate_typeError_iff _ _ _ _ (blackScholesBody_ne_typeError S K T r sigma q
        option_type), hmemBS]
  · intro hall
    rw [black_scholes,
      pyValidate_valueError_iff _ _ _ _ (blackScholesBody_ne_valueError S K T r sigma q
        option_type) (hmemBS.mpr hall)]
  · intro hall hot hcase
    rw [black_scholes, pyValidate_pass _ _ _ _ (hmemBS.mpr hall) hot, blackScholesBody]
    split_ifs with h1 h2 h3
    · exact ⟨_, rfl⟩
    · exact ⟨_, rfl⟩
    · exact absurd hcase (by tauto)
    · exact ⟨_, rfl⟩
  · intro hall hot h1 h2 h3
    rw [black_scholes, pyValidate_pass _ _ _ _ (hmemBS.mpr hall) hot, blackScholesBody,
      if_neg h1, if_neg h2, if_pos h3]
  · rw [GreekCalculator.init,
      pyValidate_typeError_iff _ _ _ _ (greekInitBody_ne_typeError S K T r sigma
        option_type), hmemGC]
  · intro hall
    rw [GreekCalculator.init,
      pyValidate_valueError_iff _ _ _ _ (greekInitBody_ne_valueError S K T r sigma
        option_type) (hmemGC.mpr hall)]
  · intro hall hot hK
    rw [GreekCalculator.init, pyValidate_pass _ _ _ _ (hmemGC.mpr hall) hot,
      greekInitBody, if_neg hK]
    exact ⟨_, rfl⟩
  · intro hall hot hK
    rw [GreekCalculator.init, pyValidate_pass _ _ _ _ (hmemGC.mpr hall) hot,
      greekInitBody, if_pos hK]

/-- Closed witness for `C5_validation_raises_iff_amended`: a returned value at
`K = 100`, a `TypeError` for a string argument, and the `ZeroDivisionError`
branches of both functions at `K = 0`. -/
theorem C5_validation_raises_iff_amended_witness :
    (∃ v, black_scholes (PyVal.float 100) (PyVal.float 100) (PyVal.float 1)
        (PyVal.float 0.05) (PyVal.float 0.2) "call" (PyVal.int 0) = Except.ok v) ∧
    (∃ m, black_scholes (PyVal.str "x") (PyVal.float 100) (PyVal.float 1)
        (PyVal.float 0.05) (PyVal.float 0.2) "call" (PyVal.int 0) =
      Except.error (PyError.typeError m)) ∧
    black_scholes (PyVal.float 1) (PyVal.float 0) (PyVal.float 1) (PyVal.float 0)
        (PyVal.float 1) "call" (PyVal.float 0) =
      Except.error (PyError.zeroDivisionError
        (pyDivZeroMsg (PyVal.float 1) (PyVal.float 0))) ∧
    (∃ g, GreekCalculator.init (PyVal.float 100) (PyVal.float 100) (PyVal.float 1)
        (PyVal.float 0.05) (PyVal.float 0.2) "call" = Except.ok g) ∧
    GreekCalculator.init (PyVal.float 1) (PyVal.float 0) (PyVal.float 1)
        (PyVal.float 0) (PyVal.float 1) "call" =
      Except.error (PyError.zeroDivisionError
        (pyDivZeroMsg (PyVal.float 1) (PyVal.float 0))) :=
  ⟨(C5_validation_raises_iff_amended (PyVal.float 100) (PyVal.float 100)
      (PyVal.float 1) (PyVal.float 0.05) (PyVal.float 0.2) (PyVal.int 0)
      "call").2.2.1 (by simp [PyVal.isNum]) (Or.inl rfl)
      (Or.inr (Or.inr (by norm_num [PyVal.toReal]))),
   (C5_validation_raises_iff_amended (PyVal.str "x") (PyVal.float 100)
      (PyVal.float 1) (PyVal.float 0.05) (PyVal.float 0.2) (PyVal.int 0)
      "call").1.mpr (by simp [PyVal.isNum]),
   (C5_validation_raises_iff_amended (PyVal.float 1) (PyVal.float 0)
      (PyVal.float 1) (PyVal.float 0) (PyVal.float 1) (PyVal.float 0)
      "call").2.2.2.1 (by simp [PyVal.isNum]) (Or.inl rfl)
      (by norm_num [PyVal.toReal]) (by norm_num [PyVal.toReal])
      (by norm_num [PyVal.toReal]),
   (C5_validation_raises_iff_amended (PyVal.float 100) (PyVal.float 100)
      (PyVal.float 1) (PyVal.float 0.05) (PyVal.float 0.2) (PyVal.int 0)
      "call").2.2.2.2.2.2.1 (by simp [PyVal.isNum]) (Or.inl rfl)
      (by norm_num [PyVal.toReal]),
   (C5_validation_raises_iff_amended (PyVal.float 1) (PyVal.float 0)
      (PyVal.float 1) (PyVal.float 0) (PyVal.float 1) (PyVal.float 0)
      "call").2.2.2.2.2.2.2 (by simp [PyVal.isNum]) (Or.inl rfl)
      (by norm_num [PyVal.toReal])⟩

/-!
## C7: non-positive `T` does not raise
-/

/-- C7 counterexample: `black_scholes` with the non-positive maturity `T = 0`
(all arguments numeric, valid option type) raises nothing and returns the
numeric intrinsic value `10`, contradicting the claim that a validation error
is raised and no numeric result is returned. -/
theorem C7_counterexample :
    black_scholes (PyVal.float 100) (PyVal.float 90) (PyVal.float 0)
      (PyVal.float 0.05) (PyVal.float 0.2) "call" (PyVal.int 0) =
      Except.ok 10 := by
  rw [black_scholes,
    pyValidate_pass _ _ _ _ (by simp [PyVal.isNum]) (Or.inl rfl), blackScholesBody]
  norm_num [blackScholesVal, PyVal.toReal]

/-- C7 amended: supplying non-positive `T` to `black_scholes` raises no error
and returns the undiscounted intrinsic value (the `T <= 0` branch precedes any
division), and the `GreekCalculator` constructor also raises no error for
non-positive `T` on the spec's `K > 0` data-model domain (here, `K ≠ 0`): its
validation checks only argument types and the option type, and the d1/d2
division is by a `np.float64`, which warns instead of raising. -/
theorem C7_amended (S K T r sigma q : ℝ) (hT : T ≤ 0) :
    black_scholes (PyVal.float S) (PyVal.float K) (PyVal.float T) (PyVal.float r)
        (PyVal.float sigma) "call" (PyVal.float q) = Except.ok (max (S - K) 0) ∧
    black_scholes (PyVal.float S) (PyVal.float K) (PyVal.float T) (PyVal.float r)
        (PyVal.float sigma) "put" (PyVal.float q) = Except.ok (max (K - S) 0) ∧
    (K ≠ 0 → ∃ g, GreekCalculator.init (PyVal.float S) (PyVal.float K) (PyVal.float T)
        (PyVal.float r) (PyVal.float sigma) "call" = Except.ok g) ∧
    (K ≠ 0 → ∃ g, GreekCalculator.init (PyVal.float S) (PyVal.float K) (PyVal.float T)
        (PyVal.float r) (PyVal.float sigma) "put" = Except.ok g) := by
  refine ⟨?_, ?_, ?_, ?_⟩
  · rw [black_scholes,
      pyValidate_pass _ _ _ _ (by simp [PyVal.isNum]) (Or.inl rfl), blackScholesBody]
    simp only [PyVal.toReal]
    rw [if_pos hT]
    simp only [blackScholesVal, if_pos hT]
    simp
  · rw [black_scholes,
      pyValidate_pass _ _ _ _ (by simp [PyVal.isNum]) (Or.inr rfl), blackScholesBody]
    simp only [PyVal.toReal]
    rw [if_pos hT]
    simp only [blackScholesVal, if_pos hT]
    simp
  · intro hK
    rw [GreekCalculator.init,
      pyValidate_pass _ _ _ _ (by simp [PyVal.isNum]) (Or.inl rfl), greekInitBody]
    simp only [PyVal.toReal]
    rw [if_neg hK]
    exact ⟨_, rfl⟩
  · intro hK
    rw [GreekCalculator.init,
      pyValidate_pass _ _ _ _ (by simp [PyVal.isNum]) (Or.inr rfl), greekInitBody]
    simp only [PyVal.toReal]
    rw [if_neg hK]
    exact ⟨_, rfl⟩

/-- Closed witness for `C7_amended` at `T = 0`, `K = 90`. -/
theorem C7_amended_witness :
    black_scholes (PyVal.float 100) (PyVal.float 90) (PyVal.float 0) (PyVal.float 0.05)
        (PyVal.float 0.2) "call" (PyVal.float 0) = Except.ok (max ((100 : ℝ) - 90) 0) ∧
    black_scholes (PyVal.float 100) (PyVal.float 90) (PyVal.float 0) (PyVal.float 0.05)
        (PyVal.float 0.2) "put" (PyVal.float 0) = Except.ok (max ((90 : ℝ) - 100) 0) ∧
    (∃ g, GreekCalculator.init (PyVal.float 100) (PyVal.float 90) (PyVal.float 0)
        (PyVal.float 0.05) (PyVal.float 0.2) "call" = Except.ok g) ∧
    (∃ g, GreekCalculator.init (PyVal.float 100) (PyVal.float 90) (PyVal.float 0)
        (PyVal.float 0.05) (PyVal.float 0.2) "put" = Except.ok g) :=
  ⟨(C7_amended 100 90 0 0.05 0.2 0 (by norm_num)).1,
   (C7_amended 100 90 0 0.05 0.2 0 (by norm_num)).2.1,
   (C7_amended 100 90 0 0.05 0.2 0 (by norm_num)).2.2.1 (by norm_num),
   (C7_amended 100 90 0 0.05 0.2 0 (by norm_num)).2.2.2 (by norm_num)⟩

/-!
## C6: the simulation does not validate `T <= 0`
-/

/-- C6: evaluating the simulation model at `T = 0` (reachable from the page's
text input `"0"`; with `dt = 0` every Brownian increment is `0`, so every path
is constantly `S0 = 100`).  No validation error occurs: the hedge loop breaks
at step `0` and the run silently produces a degenerate result with empty
trajectories and `pnl = (0 - payoff) * qty - premium * qty = -5`. -/
theorem C6_degenerate_run_T_zero :
    simulatePath (gbmPath 100 0.05 0.2 0 10 fun _ => 0) 100 0 0.05 0.2 "call" 10 1 5 =
      ⟨-5, [], []⟩ := by
  have hbreak : hedgeLoop (gbmPath 100 0.05 0.2 0 10 fun _ => 0) 100 0 0.05 0.2
      ((0 : ℝ) / ((10 : ℕ) : ℝ)) "call" 10 0 ⟨0, 0, [], []⟩ = ⟨0, 0, [], []⟩ := by
    rw [show (10 : ℕ) = 9 + 1 from rfl, hedgeLoop, if_pos (by norm_num)]
  simp only [simulatePath, hbreak]
  norm_num [gbmPath, Real.exp_zero]

/-- C6 amended: the simulation performs no `T`/`N` validation.  Whenever
`T ≤ 0`, the per-path hedge loop breaks at step `0` and the run silently
produces a degenerate result: empty stock and delta trajectories and
`pnl = (0 - payoff) * qty - premium * qty` computed at the terminal price. -/
theorem C6_amended_no_validation (path : ℕ → ℝ) (strike T r sigma qty premium : ℝ)
    (option_type : String) (N : ℕ) (hT : T ≤ 0) :
    simulatePath path strike T r sigma option_type N qty premium =
      ⟨(0 - (if option_type = "call" then max (path N - strike) 0
          else max (strike - path N) 0)) * qty - premium * qty, [], []⟩ := by
  have hst : hedgeLoop path strike T r sigma (T / N) option_type N 0 ⟨0, 0, [], []⟩ =
      ⟨0, 0, [], []⟩ := by
    cases N with
    | zero => rw [hedgeLoop]
    | succ n =>
      rw [hedgeLoop, if_pos]
      simpa using hT
  simp only [simulatePath, hst]
  norm_num

/-- Closed witness for `C6_amended_no_validation` at `T = 0`. -/
theorem C6_amended_no_validation_witness :
    simulatePath (fun _ => (100 : ℝ)) 90 0 0.05 0.2 "call" 10 1 5 =
      ⟨(0 - (if ("call" : String) = "call" then max ((100 : ℝ) - 90) 0
          else max ((90 : ℝ) - 100) 0)) * 1 - 5 * 1, [], []⟩ :=
  C6_amended_no_validation (fun _ => (100 : ℝ)) 90 0 0.05 0.2 1 5 "call" 10 le_rfl

/-!
## C9: portfolio payoff at the strike
-/

/-- C9: a portfolio holding a single long call (quantity `1`, strike `K`,
premium `p`) has aggregated payoff `-p` at every grid point equal to `K`. -/
theorem C9_single_call_payoff_at_strike (K p sigma : ℝ) (grid : List ℝ) (i : ℕ)
    (hK : grid[i]? = some K) :
    (payoffCurve [⟨"call", K, 1, sigma, p⟩] grid)[i]? = some (-p) := by
  rw [payoffCurve, List.getElem?_map, hK]
  simp [totalPayoff, positionPayoff]

/-- Closed witness for `C9_single_call_payoff_at_strike` on a one-point grid. -/
theorem C9_single_call_payoff_at_strike_witness :
    (payoffCurve [⟨"call", 5, 1, 1, 2⟩] [(5 : ℝ)])[0]? = some ((-2 : ℝ)) :=
  C9_single_call_payoff_at_strike 5 2 1 [(5 : ℝ)] 0 (by simp)

end QuantFin
